import Mathlib

/-!
Verification of the `dld-utils` download engine against its specification.

The JavaScript sources (`src/lib/download.js`, `src/lib/file-manager.js`,
`src/utils/progress-bar.js`, `src/errors/download-errors.js`) are shallowly
embedded below.  External effects (the HTTP client, the filesystem, the
clock, `Math.random`, the terminal render surface) are supplied through an
explicit environment record; every operation that can throw in JavaScript is
modelled with `Except`, and `try`/`catch` is modelled by matching on the
`Except` value.  Console logging (`ConsoleMessages`) is presentation-only and
modelled as a no-op, following the specification's scope section which treats
textual logging as an external collaborator.
-/

namespace DldUtils

/-- The error classes of `src/errors/download-errors.js`.  Each constructor
mirrors one class (`FetchError`, `FileSystemError`, `DownloadFailedError`)
with its `message` and extra fields; `plain` is a bare JavaScript `Error`. -/
inductive JsError where
  | fetch (message url : String) (originalError : JsError)
  | fileSystem (message path : String) (originalError : JsError)
  | downloadFailed (message url path : String) (originalError : JsError)
  | plain (message : String)
deriving DecidableEq, Repr

/-- The `message` property of an error object. -/
def JsError.message : JsError → String
  | .fetch m _ _ => m
  | .fileSystem m _ _ => m
  | .downloadFailed m _ _ _ => m
  | .plain m => m

/-- The single terminal event of a response stream piped to a write stream:
the `end` event, a stream `error` event, or a write-stream `error` event
(whichever settles the promise in `downloadOne` first). -/
inductive StreamFate where
  | ended
  | streamError (err : JsError)
  | writeError (err : JsError)
deriving DecidableEq, Repr

/-- A response data stream as `downloadOne` consumes it: the parsed
`content-length` header, the sizes of the `data` chunks, and its fate. -/
structure DataStream where
  contentLength : Nat
  chunkSizes : List Nat
  fate : StreamFate
deriving DecidableEq, Repr

/-- The value a settled `downloadOne` promise resolves to:
`{success: true, filePath}` or `{success: false, error}`. -/
inductive Outcome where
  | success (filePath : String)
  | failure (error : JsError)
deriving DecidableEq, Repr

/-! ## String trimming (`String.prototype.trim`) -/

/-- `String.prototype.trim` on the character list: drop leading whitespace,
then trailing whitespace. -/
def trimL (l : List Char) : List Char :=
  ((l.dropWhile Char.isWhitespace).reverse.dropWhile Char.isWhitespace).reverse

/-- `String.prototype.trim`. -/
def jsTrim (s : String) : String := ⟨trimL s.data⟩

/-! ## FileManager (`src/lib/file-manager.js`) -/

/-- `FileManager.normalizeDirPath` (file-manager.js:45-48): the empty/blank
path stays empty, otherwise the trimmed path gets the platform separator
appended exactly when it does not already end with it.  `path.sep` is a
single character (`/` or `\`), so `endsWith(path.sep)` is a last-character
test. -/
def normalizeDirPath (sep : Char) (dirPath : String) : String :=
  if jsTrim dirPath = "" then ""
  else if (jsTrim dirPath).data.getLast? = some sep then jsTrim dirPath
  else jsTrim dirPath ++ String.singleton sep

/-! ### Decimal numerals

JavaScript template literals (`` `${Date.now()}` ``, `` `${counter}` ``)
render a natural number in decimal, most significant digit first. -/

/-- One decimal digit character. -/
def digitChar : Nat → Char
  | 0 => '0' | 1 => '1' | 2 => '2' | 3 => '3' | 4 => '4'
  | 5 => '5' | 6 => '6' | 7 => '7' | 8 => '8' | _ => '9'

/-- Decimal representation of a natural number, as a character list. -/
def decRepr (n : Nat) : List Char :=
  if _h : n < 10 then [digitChar n]
  else decRepr (n / 10) ++ [digitChar (n % 10)]
decreasing_by exact Nat.div_lt_self (by omega) (by omega)

/-- Decimal representation of a natural number, as a string. -/
def decStr (n : Nat) : String := ⟨decRepr n⟩

/-- The base/extension split of `generateUniqueFilename`
(file-manager.js:67-69): the extension is the substring from the last `.`
on (including the dot); absent a dot the extension is empty. -/
def splitExt (fileName : String) : String × String :=
  match fileName.data.reverse.span (fun c => c ≠ '.') with
  | (_, []) => (fileName, "")
  | (a, _ :: rest) => (⟨rest.reverse⟩, ⟨'.' :: a.reverse⟩)

/-- The candidate name `base-(c)ext` tried by the `counter` strategy. -/
def counterName (base ext : String) (c : Nat) : String :=
  base ++ "-(" ++ decStr c ++ ")" ++ ext

/-- The `do`/`while` loop of the `counter` strategy
(file-manager.js:78-82): starting at `c`, return the first candidate
`base-(c)ext` whose full path is not among the existing files.  The loop is
embedded with an explicit iteration bound; `fs.length + 1` iterations always
suffice (pigeonhole, proved below), so the fuel-exhausted base case is
unreachable at the call site. -/
def counterLoop (fs : List String) (np base ext : String) : Nat → Nat → String
  | 0, c => counterName base ext c
  | fuel + 1, c =>
    if np ++ counterName base ext c ∈ fs then counterLoop fs np base ext fuel (c + 1)
    else counterName base ext c

/-- `FileManager.generateUniqueFilename` (file-manager.js:58-93).
`fs` is the `existsSync` oracle (the set of existing paths at resolution
time), `nowMs` is `Date.now()`, and `randomStr` is the 6-character value of
`Math.random().toString(36).substring(2, 8)`. -/
def generateUniqueFilename (fs : List String) (sep : Char) (nowMs : Nat)
    (randomStr : String) (dirPath fileName : String) (strategy : String) : String :=
  let normalizedPath := normalizeDirPath sep dirPath
  let fullPath := normalizedPath ++ fileName
  if fullPath ∈ fs then
    let base := (splitExt fileName).1
    let ext := (splitExt fileName).2
    if strategy = "timestamp" then base ++ "-" ++ decStr nowMs ++ ext
    else if strategy = "counter" then counterLoop fs normalizedPath base ext (fs.length + 1) 1
    else if strategy = "random" then base ++ "-" ++ randomStr ++ ext
    else base ++ "-" ++ decStr nowMs ++ ext
  else fileName

/-! ## Destination and error plumbing -/

/-- The external world as `Download` observes it.  Function-valued fields
model the fallible external calls; an `Except.error` result is a thrown
JavaScript exception. -/
structure Env where
  /-- `path.sep`, a single character. -/
  sep : Char
  /-- `axios.get(url, {responseType: "stream", timeout})`: the response data
  stream, or the error the rejected promise carries. -/
  fetch : String → Nat → Except JsError DataStream
  /-- `CreatePath.make_dir(dirPath)`: a boolean result, or a throw. -/
  make_dir : String → Except JsError Bool
  /-- The `existsSync` oracle: the file paths present at name-resolution
  time. -/
  existingFiles : List String
  /-- `Date.now()` at name-resolution time. -/
  nowMs : Nat
  /-- `Math.random().toString(36).substring(2, 8)`. -/
  randomStr : String
  /-- `SingleBar.start`: `some e` when the render surface throws `e`. -/
  barStartErr : Option JsError
  /-- `fs.createWriteStream(filePath)`: `some e` when it throws `e`. -/
  createWS : String → Option JsError

/-- `FileManager.ensureDirectoryExists` (file-manager.js:31-38), paired with
the list of directory paths whose creation was attempted (for the blank
path, `make_dir` is never called).  A `make_dir` throw is wrapped into a
`FileSystemError` carrying the path and the cause and re-thrown. -/
def ensureDirectoryExists (env : Env) (dirPath : String) :
    Except JsError Bool × List String :=
  if jsTrim dirPath = "" then (.ok true, [])
  else
    match env.make_dir dirPath with
    | .ok b => (.ok b, [dirPath])
    | .error e =>
      (.error (.fileSystem ("Failed to create directory: " ++ dirPath) dirPath e),
       [dirPath])

/-- `FileManager.createFileWriteStream` (file-manager.js:101-107): a throw
from `createWriteStream` is wrapped into a `FileSystemError`. -/
def createFileWriteStream (env : Env) (filePath : String) : Except JsError Unit :=
  match env.createWS filePath with
  | none => .ok ()
  | some e =>
    .error (.fileSystem ("Failed to create write stream for file: " ++ filePath)
      filePath e)

/-! ## Download (`src/lib/download.js`) -/

/-- The constructor state of a `Download` instance (download.js:24-31). -/
structure DownloadCfg where
  timeout : Nat := 5000
  fileNamingStrategy : String := "timestamp"
deriving DecidableEq, Repr

/-- The options record of `downloadOne` (download.js:63), with `none` for an
absent property (the defaults `''`, `'file'`, `1`, and the constructor
strategy are applied by `downloadOne` itself). -/
structure DlOptions where
  path : Option String := none
  fileName : Option String := none
  downloadNumber : Option Nat := none
  fileNamingStrategy : Option String := none
deriving DecidableEq, Repr

/-- The side effects a `downloadOne` call performed: directory creations
attempted, file names resolved, progress bars started (with their display
numbers), and write sinks opened. -/
structure Trace where
  dirsEnsured : List String := []
  namesResolved : List String := []
  progressStarted : List Nat := []
  sinksOpened : List String := []
deriving DecidableEq, Repr

/-- `Download.#fetchData` (download.js:40-50): a rejected `axios` promise is
wrapped into a `FetchError` carrying the URL and the original error. -/
def fetchData (env : Env) (timeout : Nat) (url : String) : Except JsError DataStream :=
  match env.fetch url timeout with
  | .ok d => .ok d
  | .error e => .error (.fetch ("Failed to fetch data from URL: " ++ url) url e)

/-- The body of `Download.downloadOne` (download.js:62-133) up to but not
including the outer `catch`: the `Except.error` component is an exception
reaching the outer boundary.  Step by step:
fetch (its own `try`/`catch` returns a failure outcome), directory
creation, name resolution against the normalized path, progress-bar start
(a throwing `SingleBar.start` is wrapped by `ProgressBar.start` into
`Error("Failed to start progress bar: ...")`), write-stream creation, and
the promise settled by the stream's terminal event. -/
def downloadOneBody (cfg : DownloadCfg) (env : Env) (url : String)
    (opts : DlOptions) : Except JsError Outcome × Trace :=
  let path := opts.path.getD ""
  let fileName := opts.fileName.getD "file"
  let downloadNumber := opts.downloadNumber.getD 1
  let strategy := opts.fileNamingStrategy.getD cfg.fileNamingStrategy
  match fetchData env cfg.timeout url with
  | .error e => (.ok (.failure e), {})
  | .ok dataStream =>
    match ensureDirectoryExists env path with
    | (.error e, dirs) => (.error e, { dirsEnsured := dirs })
    | (.ok false, dirs) =>
      (.ok (.failure (.plain ("Failed to create directory: " ++ path))),
       { dirsEnsured := dirs })
    | (.ok true, dirs) =>
      let normalizedPath := normalizeDirPath env.sep path
      let uniqueFileName := generateUniqueFilename env.existingFiles env.sep
        env.nowMs env.randomStr normalizedPath fileName strategy
      let filePath := normalizedPath ++ uniqueFileName
      match env.barStartErr with
      | some e =>
        (.error (.plain ("Failed to start progress bar: " ++ e.message)),
         { dirsEnsured := dirs, namesResolved := [uniqueFileName],
           progressStarted := [downloadNumber] })
      | none =>
        match createFileWriteStream env filePath with
        | .error e =>
          (.error e,
           { dirsEnsured := dirs, namesResolved := [uniqueFileName],
             progressStarted := [downloadNumber] })
        | .ok _ =>
          let tr : Trace :=
            { dirsEnsured := dirs, namesResolved := [uniqueFileName],
              progressStarted := [downloadNumber], sinksOpened := [filePath] }
          match dataStream.fate with
          | .ended => (.ok (.success filePath), tr)
          | .streamError err =>
            (.ok (.failure (.downloadFailed ("Download failed for URL: " ++ url)
              url filePath err)), tr)
          | .writeError err =>
            (.ok (.failure (.downloadFailed ("Failed to write file: " ++ filePath)
              url filePath err)), tr)

/-- `Download.downloadOne` (download.js:62-133): the body wrapped in the
outer `try`/`catch`, which turns any escaping exception into
`{success: false, error}`.  An `Except.error` result would be a rejected
promise; the contract says there is none. -/
def downloadOne (cfg : DownloadCfg) (env : Env) (url : String)
    (opts : DlOptions) : Except JsError (Outcome × Trace) :=
  match downloadOneBody cfg env url opts with
  | (.ok o, t) => .ok (o, t)
  | (.error e, t) => .ok (.failure e, t)

/-- One entry of the `downloadMany` argument list (download.js:152):
the fields `downloadOptions[i]` may carry.  A caller-supplied entry may
also carry `downloadNumber` or `fileNamingStrategy`; the loop does not read
them. -/
structure ManyReq where
  url : String
  path : Option String := none
  fileName : Option String := none
  downloadNumber : Option Nat := none
  fileNamingStrategy : Option String := none
deriving DecidableEq, Repr

/-- The loop of `Download.downloadMany` (download.js:150-165), processing
the requests from index `i` on.  A `none` entry models a `null`/non-object
element, whose destructuring throws a `TypeError` inside the loop; the
surrounding `catch` (download.js:172-175) then returns the results
accumulated so far, which the recursion's cons structure preserves.  The
`Except.error` arm of an awaited `downloadOne` (a rejected promise, which
never happens) would reach the same `catch`.  Per-call environments are
indexed by position, the world evolving between transfers. -/
def downloadManyLoop (cfg : DownloadCfg) (envs : Nat → Env) :
    Nat → List (Option ManyReq) → List Outcome
  | _, [] => []
  | _, none :: _ => []
  | i, some r :: rest =>
    match downloadOne cfg (envs i) r.url
      { path := some (r.path.getD ""), fileName := some (r.fileName.getD "file"),
        downloadNumber := some (i + 1), fileNamingStrategy := none } with
    | .ok (o, _) => o :: downloadManyLoop cfg envs (i + 1) rest
    | .error _ => []

/-- `Download.downloadMany` (download.js:143-176). -/
def downloadMany (cfg : DownloadCfg) (envs : Nat → Env)
    (reqs : List (Option ManyReq)) : List Outcome :=
  downloadManyLoop cfg envs 0 reqs

/-- Projection of a request onto the fields the `downloadMany` loop reads
(`url`, `path`, `fileName`; download.js:152). -/
def scrubReq (r : ManyReq) : ManyReq :=
  { url := r.url, path := r.path, fileName := r.fileName }

/-! ## ProgressBar (`src/utils/progress-bar.js`)

JavaScript numbers are IEEE doubles; the update path divides by quantities
that are exactly zero, so the special values matter.  `JsNum` models a
double as an exact rational or one of the non-finite values; for the
operations `update` performs on the values it actually produces this is
faithful except for rounding noise, which no claim depends on. -/

/-- A JavaScript number: finite (exact rational), `Infinity`, `-Infinity`,
or `NaN`. -/
inductive JsNum where
  | num (q : ℚ)
  | inf
  | negInf
  | nan
deriving DecidableEq, Repr

/-- Finiteness of a JavaScript number. -/
def JsNum.isFinite : JsNum → Bool
  | .num _ => true
  | _ => false

/-- Division of finite doubles, with the IEEE zero-divisor cases:
`x / 0` is `±Infinity` for `x ≠ 0` and `NaN` for `x = 0`. -/
def jsDiv (a b : ℚ) : JsNum :=
  if b = 0 then (if a = 0 then .nan else if 0 < a then .inf else .negInf)
  else .num (a / b)

/-- `parseFloat((bytes / (1024 * 1024)).toFixed(2))`: megabytes rounded to
two decimals (round half up). -/
def toFixed2MB (bytes : Nat) : ℚ :=
  ((bytes * 100 + 524288) / 1048576 : Nat) / 100

/-- The mutable state of a `ProgressBar` instance (progress-bar.js:196-199):
accumulated byte count, start time, declared total in MB (the numeric value
of the `toFixed(2)` string), and the active flag. -/
structure PBState where
  totalSize : Nat
  startTime : Nat
  totalSizeMB : ℚ
  isActive : Bool
deriving DecidableEq, Repr

/-- The payload handed to the render surface by `this.bar.update(...)`
(progress-bar.js:261): the new value in MB, the speed, and the ETA in
seconds as computed at progress-bar.js:257 — `secondsToDuration` (external
`@el-zazo/main-utils`) receives exactly this number to format. -/
structure UpdateEvent where
  value : ℚ
  speed : JsNum
  etaSeconds : JsNum
deriving DecidableEq, Repr

/-- `ProgressBar.update` (progress-bar.js:241-266).  `now` is `Date.now()`
and `chunkLen` is `chunk.length`.  When inactive, returns without touching
anything; otherwise accumulates the chunk, derives speed and ETA, and emits
the render payload.  The surrounding `try`/`catch` swallows render-surface
errors, so the call never throws and the emitted payload is unconditional
on the surface's behavior. -/
def ProgressBar.update (now chunkLen : Nat) (s : PBState) :
    PBState × Option UpdateEvent :=
  if s.isActive then
    let totalSize := s.totalSize + chunkLen
    let downloadedSizeMB := toFixed2MB totalSize
    let elapsedTime : ℚ := ((now - s.startTime : Nat) : ℚ) / 1000
    let speed := jsDiv downloadedSizeMB elapsedTime
    let remainingSizeMB := s.totalSizeMB - downloadedSizeMB
    let estimatedTimeRemaining := jsDiv (remainingSizeMB * elapsedTime) downloadedSizeMB
    ({ s with totalSize := totalSize },
     some ⟨downloadedSizeMB, speed, estimatedTimeRemaining⟩)
  else (s, none)

/-- An observable action on the render surface / console during `stop`. -/
inductive RenderEvent where
  | barStop
  | consoleError (msg : String)
deriving DecidableEq, Repr

/-- `ProgressBar.stop` (progress-bar.js:271-281).  `stopErr` is `some e`
when the underlying `SingleBar.stop` throws `e`; the `catch` logs it and
the `finally` clears the active flag regardless.  When inactive, nothing
happens at all. -/
def ProgressBar.stop (stopErr : Option JsError) (s : PBState) :
    PBState × List RenderEvent :=
  if s.isActive then
    match stopErr with
    | none => ({ s with isActive := false }, [.barStop])
    | some e =>
      ({ s with isActive := false },
       [.barStop, .consoleError ("Error stopping progress bar: " ++ e.message)])
  else (s, [])

/-! ## Concrete worlds used by the witnesses -/

/-- A `Download` instance built with default options. -/
def cfg0 : DownloadCfg := {}

/-- A well-behaved world: the fetch succeeds with a cleanly ending stream,
directories get created, nothing throws. -/
def envOk : Env where
  sep := '/'
  fetch := fun _ _ => .ok { contentLength := 100, chunkSizes := [100], fate := .ended }
  make_dir := fun _ => .ok true
  existingFiles := []
  nowMs := 0
  randomStr := "abc123"
  barStartErr := none
  createWS := fun _ => none

/-- A world whose HTTP client rejects every request. -/
def envFetchFail : Env :=
  { envOk with fetch := fun _ _ => .error (.plain "ECONNREFUSED") }

/-- Worlds whose every fetch fails. -/
def envsFail : Nat → Env := fun _ => envFetchFail

/-! # Lemmas and theorems -/

/-! ## Trimming -/

theorem head?_dropWhile_not (p : Char → Bool) :
    ∀ (l : List Char) (x : Char), (l.dropWhile p).head? = some x → p x = false := by
  intro l
  induction l with
  | nil => intro x h; simp [List.dropWhile] at h
  | cons a t ih =>
    intro x h
    rw [List.dropWhile_cons] at h
    by_cases hp : p a
    · rw [if_pos hp] at h; exact ih x h
    · rw [if_neg hp] at h
      simp only [List.head?_cons, Option.some.injEq] at h
      subst h
      simpa using hp

theorem dropWhile_eq_self_of_head (p : Char → Bool) (l : List Char)
    (h : ∀ x, l.head? = some x → p x = false) : l.dropWhile p = l := by
  cases l with
  | nil => rfl
  | cons a t =>
    rw [List.dropWhile_cons, if_neg]
    simpa using h a rfl

theorem trimL_nil_of_all {l : List Char} (h : ∀ c ∈ l, c.isWhitespace) :
    trimL l = [] := by
  unfold trimL
  rw [List.dropWhile_eq_nil_iff.2 h]
  simp

theorem trimL_getLast?_not_ws (l : List Char) :
    ∀ x, (trimL l).getLast? = some x → x.isWhitespace = false := by
  intro x h
  unfold trimL at h
  rw [List.getLast?_reverse] at h
  exact head?_dropWhile_not _ _ x h

theorem trimL_head?_not_ws (l : List Char) :
    ∀ x, (trimL l).head? = some x → x.isWhitespace = false := by
  intro x h
  unfold trimL at h
  rw [List.head?_reverse] at h
  set A := l.dropWhile Char.isWhitespace with hA
  have hsplit : A.reverse.takeWhile Char.isWhitespace ++
      A.reverse.dropWhile Char.isWhitespace = A.reverse :=
    List.takeWhile_append_dropWhile _ _
  rcases hB : A.reverse.dropWhile Char.isWhitespace with _ | ⟨b, B'⟩
  · rw [hB] at h; simp at h
  · rw [hB] at h
    have hlast : A.reverse.getLast? = some x := by
      rw [← hsplit, hB]
      rw [List.getLast?_append_of_ne_nil]
      · exact h
      · simp
    rw [List.getLast?_reverse] at hlast
    exact head?_dropWhile_not _ _ x hlast

theorem trimL_eq_self (l : List Char)
    (h1 : ∀ x, l.head? = some x → x.isWhitespace = false)
    (h2 : ∀ x, l.getLast? = some x → x.isWhitespace = false) : trimL l = l := by
  unfold trimL
  rw [dropWhile_eq_self_of_head _ _ h1]
  rw [dropWhile_eq_self_of_head]
  · exact List.reverse_reverse l
  · intro x hx
    rw [List.head?_reverse] at hx
    exact h2 x hx

theorem trimL_idem (l : List Char) : trimL (trimL l) = trimL l :=
  trimL_eq_self _ (trimL_head?_not_ws l) (trimL_getLast?_not_ws l)

theorem trimL_append_singleton_not_ws {l : List Char} {c : Char}
    (hc : c.isWhitespace = false)
    (hhead : ∀ x, l.head? = some x → x.isWhitespace = false) :
    trimL (l ++ [c]) = l ++ [c] := by
  apply trimL_eq_self
  · intro x hx
    cases l with
    | nil => simp at hx; subst hx; exact hc
    | cons a t => simp at hx; subst hx; exact hhead a rfl
  · intro x hx
    rw [List.getLast?_append_of_ne_nil _ (by simp)] at hx
    simp at hx
    subst hx
    exact hc

theorem trimL_append_singleton_ws {l : List Char} {c : Char}
    (hc : c.isWhitespace = true) (hne : l ≠ [])
    (hhead : ∀ x, l.head? = some x → x.isWhitespace = false)
    (hlast : ∀ x, l.getLast? = some x → x.isWhitespace = false) :
    trimL (l ++ [c]) = l := by
  unfold trimL
  have h1 : (l ++ [c]).dropWhile Char.isWhitespace = l ++ [c] := by
    apply dropWhile_eq_self_of_head
    intro x hx
    cases l with
    | nil => exact absurd rfl hne
    | cons a t => simp at hx; subst hx; exact hhead a rfl
  rw [h1, List.reverse_append]
  simp only [List.reverse_cons, List.reverse_nil, List.nil_append, List.singleton_append,
    List.dropWhile_cons]
  rw [if_pos (by simpa using hc)]
  rw [dropWhile_eq_self_of_head]
  · exact List.reverse_reverse l
  · intro x hx
    rw [List.head?_reverse] at hx
    exact hlast x hx

/-! ## Normalization -/

theorem jsTrim_data (s : String) : (jsTrim s).data = trimL s.data := rfl

theorem data_eq_nil_iff (s : String) : s.data = [] ↔ s = "" := by
  constructor
  · intro h; exact String.ext h
  · intro h; rw [h]

theorem jsTrim_idem (s : String) : jsTrim (jsTrim s) = jsTrim s :=
  String.ext (by rw [jsTrim_data, jsTrim_data, trimL_idem])

theorem singleton_data (c : Char) : (String.singleton c).data = [c] := rfl

/-- `normalizeDirPath` is idempotent: normalizing an already normalized
directory path changes nothing.  (`downloadOne` hands the normalized path to
`generateUniqueFilename`, which normalizes again; this lemma identifies the
two existence checks.) -/
theorem normalizeDirPath_idem (sep : Char) (p : String) :
    normalizeDirPath sep (normalizeDirPath sep p) = normalizeDirPath sep p := by
  by_cases h0 : jsTrim p = ""
  · have hnp : normalizeDirPath sep p = "" := by rw [normalizeDirPath, if_pos h0]
    rw [hnp, normalizeDirPath, if_pos (show jsTrim "" = "" by decide)]
  · have hdata : (jsTrim p).data ≠ [] := fun hd => h0 ((data_eq_nil_iff _).1 hd)
    have hhead := trimL_head?_not_ws p.data
    have hlast := trimL_getLast?_not_ws p.data
    by_cases h1 : (jsTrim p).data.getLast? = some sep
    · have hnp : normalizeDirPath sep p = jsTrim p := by
        rw [normalizeDirPath, if_neg h0, if_pos h1]
      have h0i : ¬ jsTrim (jsTrim p) = "" := by rw [jsTrim_idem]; exact h0
      rw [hnp, normalizeDirPath, if_neg h0i, jsTrim_idem, if_pos h1]
    · have hnp : normalizeDirPath sep p = jsTrim p ++ String.singleton sep := by
        rw [normalizeDirPath, if_neg h0, if_neg h1]
      rw [hnp]
      have hrdata : (jsTrim p ++ String.singleton sep).data =
          (jsTrim p).data ++ [sep] := by
        rw [String.data_append, singleton_data]
      by_cases hws : sep.isWhitespace
      · -- a whitespace separator gets trimmed away again, and the untouched
        -- trimmed path does not end with it, so it is re-appended
        have htr : jsTrim (jsTrim p ++ String.singleton sep) = jsTrim p := by
          apply String.ext
          rw [jsTrim_data, hrdata]
          exact trimL_append_singleton_ws hws hdata hhead hlast
        have h0i : ¬ jsTrim (jsTrim p ++ String.singleton sep) = "" := by
          rw [htr]; exact h0
        rw [normalizeDirPath, if_neg h0i, htr, if_neg h1]
      · -- a non-whitespace separator survives trimming and is now the last
        -- character, so the path is returned unchanged
        have htr : jsTrim (jsTrim p ++ String.singleton sep) =
            jsTrim p ++ String.singleton sep := by
          apply String.ext
          rw [jsTrim_data, hrdata]
          exact trimL_append_singleton_not_ws (by simpa using hws) hhead
        have h0i : ¬ jsTrim (jsTrim p ++ String.singleton sep) = "" := by
          rw [htr]
          intro hcon
          have hd := congrArg String.data hcon
          rw [hrdata] at hd
          simp at hd
        have hlast2 : (jsTrim p ++ String.singleton sep).data.getLast? = some sep := by
          rw [hrdata]
          exact List.getLast?_append_of_ne_nil _ (by simp)
        rw [normalizeDirPath, if_neg h0i, htr, if_pos hlast2]

/-! ## Decimal numerals -/

theorem decRepr_ne_nil (n : Nat) : decRepr n ≠ [] := by
  rw [decRepr]
  split
  · simp
  · simp

theorem digitChar_inj {m n : Nat} (hm : m < 10) (hn : n < 10)
    (h : digitChar m = digitChar n) : m = n := by
  interval_cases m <;> interval_cases n <;> first | rfl | (exact absurd h (by decide))

theorem decRepr_small {n : Nat} (h : n < 10) : decRepr n = [digitChar n] := by
  rw [decRepr]; rw [dif_pos h]

theorem decRepr_large {n : Nat} (h : ¬ n < 10) :
    decRepr n = decRepr (n / 10) ++ [digitChar (n % 10)] := by
  rw [decRepr]; rw [dif_neg h]

theorem decRepr_inj : ∀ m n : Nat, decRepr m = decRepr n → m = n := by
  intro m
  induction m using Nat.strong_induction_on with
  | _ m ih =>
    intro n h
    by_cases hm : m < 10 <;> by_cases hn : n < 10
    · rw [decRepr_small hm, decRepr_small hn] at h
      simp only [List.cons.injEq] at h
      exact digitChar_inj hm hn h.1
    · rw [decRepr_small hm, decRepr_large hn] at h
      have hl := congrArg List.length h
      simp only [List.length_cons, List.length_append, List.length_nil] at hl
      have h0 : (decRepr (n / 10)).length = 0 := by omega
      exact absurd (List.length_eq_zero.1 h0) (decRepr_ne_nil (n / 10))
    · rw [decRepr_large hm, decRepr_small hn] at h
      have hl := congrArg List.length h
      simp only [List.length_cons, List.length_append, List.length_nil] at hl
      have h0 : (decRepr (m / 10)).length = 0 := by omega
      exact absurd (List.length_eq_zero.1 h0) (decRepr_ne_nil (m / 10))
    · rw [decRepr_large hm, decRepr_large hn] at h
      have hrev := congrArg List.reverse h
      simp only [List.reverse_append, List.reverse_cons, List.reverse_nil,
        List.nil_append, List.singleton_append, List.cons.injEq] at hrev
      have hdigit : m % 10 = n % 10 :=
        digitChar_inj (Nat.mod_lt _ (by omega)) (Nat.mod_lt _ (by omega)) hrev.1
      have hdiv : m / 10 = n / 10 :=
        ih (m / 10) (Nat.div_lt_self (by omega) (by omega))
          (n / 10) (List.reverse_injective hrev.2)
      omega

/-! ## Base/extension splitting -/

theorem splitExt_append (fileName : String) :
    (splitExt fileName).1.data ++ (splitExt fileName).2.data = fileName.data := by
  unfold splitExt
  rcases hsp : fileName.data.reverse.span (fun c => c ≠ '.') with ⟨a, b⟩
  rw [List.span_eq_take_drop] at hsp
  have hta : a = fileName.data.reverse.takeWhile (fun c => c ≠ '.') :=
    (congrArg Prod.fst hsp).symm
  have htb : b = fileName.data.reverse.dropWhile (fun c => c ≠ '.') :=
    (congrArg Prod.snd hsp).symm
  have hab : a ++ b = fileName.data.reverse := by
    rw [hta, htb]; exact List.takeWhile_append_dropWhile _ _
  cases b with
  | nil => simp only []; simp
  | cons c rest =>
    have hc : c = '.' := by
      have := head?_dropWhile_not (fun c => decide (c ≠ '.')) fileName.data.reverse c
      simp only [← htb] at this
      simpa using this rfl
    simp only []
    have hfn : fileName.data = rest.reverse ++ [c] ++ a.reverse := by
      have := congrArg List.reverse hab
      simpa [List.reverse_append] using this.symm
    rw [hfn, hc]
    simp

/-! ## Collision avoidance -/

theorem decStr_data (n : Nat) : (decStr n).data = decRepr n := rfl

theorem decRepr_length_pos (n : Nat) : 0 < (decRepr n).length := by
  rcases h : decRepr n with _ | ⟨c, t⟩
  · exact absurd h (decRepr_ne_nil n)
  · simp

theorem counterName_data (base ext : String) (c : Nat) :
    (counterName base ext c).data =
      base.data ++ ("-(".data ++ (decRepr c ++ (")".data ++ ext.data))) := by
  unfold counterName
  rw [String.data_append, String.data_append, String.data_append, String.data_append]
  rw [decStr_data]
  simp [List.append_assoc]

theorem counter_candidate_inj (np base ext : String) {c1 c2 : Nat}
    (h : np ++ counterName base ext c1 = np ++ counterName base ext c2) : c1 = c2 := by
  have hd := congrArg String.data h
  rw [String.data_append, String.data_append, counterName_data, counterName_data] at hd
  have h1 := List.append_cancel_left hd
  have h2 := List.append_cancel_left h1
  have h3 := List.append_cancel_left h2
  exact decRepr_inj _ _ (List.append_cancel_right h3)

/-- Pigeonhole: among the first `fs.length + 1` counter candidates, at least
one full path is absent from `fs`, so the `do`/`while` loop terminates
within that bound. -/
theorem counter_candidate_free (fs : List String) (np base ext : String) :
    ∃ j, j < fs.length + 1 ∧ np ++ counterName base ext (1 + j) ∉ fs := by
  by_contra hall
  push_neg at hall
  have hmaps : ∀ j ∈ Finset.range (fs.length + 1),
      np ++ counterName base ext (1 + j) ∈ fs.toFinset := by
    intro j hj
    rw [List.mem_toFinset]
    exact hall j (Finset.mem_range.1 hj)
  have hinj : Set.InjOn (fun j => np ++ counterName base ext (1 + j))
      (Finset.range (fs.length + 1)) := by
    intro x _ y _ hxy
    have := counter_candidate_inj np base ext hxy
    omega
  have hcard := Finset.card_le_card_of_injOn _ hmaps hinj
  rw [Finset.card_range] at hcard
  have hfs := List.toFinset_card_le fs
  omega

theorem counterLoop_shape (fs : List String) (np base ext : String) :
    ∀ fuel c, ∃ k, counterLoop fs np base ext fuel c = counterName base ext k := by
  intro fuel
  induction fuel with
  | zero => exact fun c => ⟨c, rfl⟩
  | succ f ih =>
    intro c
    rw [counterLoop]
    by_cases hmem : np ++ counterName base ext c ∈ fs
    · rw [if_pos hmem]; exact ih (c + 1)
    · rw [if_neg hmem]; exact ⟨c, rfl⟩

/-- The counter loop, run with enough fuel to contain a free candidate,
returns the first free candidate at or after its starting counter. -/
theorem counterLoop_spec (fs : List String) (np base ext : String) :
    ∀ fuel c, (∃ j, j < fuel ∧ np ++ counterName base ext (c + j) ∉ fs) →
    ∃ k, counterLoop fs np base ext fuel c = counterName base ext (c + k) ∧
      np ++ counterName base ext (c + k) ∉ fs ∧
      ∀ m, m < k → np ++ counterName base ext (c + m) ∈ fs := by
  intro fuel
  induction fuel with
  | zero =>
    rintro c ⟨j, hj, _⟩
    omega
  | succ f ih =>
    rintro c ⟨j, hj, hfree⟩
    rw [counterLoop]
    by_cases hmem : np ++ counterName base ext c ∈ fs
    · rw [if_pos hmem]
      have hj0 : j ≠ 0 := by
        rintro rfl
        rw [Nat.add_zero] at hfree
        exact hfree hmem
      have hstep : ∃ j2, j2 < f ∧ np ++ counterName base ext (c + 1 + j2) ∉ fs := by
        refine ⟨j - 1, by omega, ?_⟩
        have harith : c + 1 + (j - 1) = c + j := by omega
        rw [harith]
        exact hfree
      obtain ⟨k, hk1, hk2, hk3⟩ := ih (c + 1) hstep
      have harith2 : c + 1 + k = c + (k + 1) := by omega
      refine ⟨k + 1, by rw [hk1, harith2], by rw [← harith2]; exact hk2, ?_⟩
      intro m hm
      cases m with
      | zero => rw [Nat.add_zero]; exact hmem
      | succ m2 =>
        have harith3 : c + (m2 + 1) = c + 1 + m2 := by omega
        rw [harith3]
        exact hk3 m2 (by omega)
    · rw [if_neg hmem]
      exact ⟨0, by rw [Nat.add_zero], by rw [Nat.add_zero]; exact hmem, by omega⟩

theorem ne_of_data_length {a b : String} (h : a.data.length ≠ b.data.length) :
    a ≠ b :=
  fun he => h (by rw [he])

/-- The name resolver returns the desired name unchanged when no file of
that name exists under the directory (file-manager.js:64). -/
theorem generateUniqueFilename_fresh (fs : List String) (sep : Char)
    (nowMs : Nat) (randomStr dirPath fileName strategy : String)
    (h : normalizeDirPath sep dirPath ++ fileName ∉ fs) :
    generateUniqueFilename fs sep nowMs randomStr dirPath fileName strategy =
      fileName := by
  simp only [generateUniqueFilename]
  rw [if_neg h]

/-- C3: when a file with the desired name already exists in the directory,
`generateUniqueFilename` returns a name different from the original under
every strategy (timestamp, counter, random, and the unknown-strategy
fallback), and under the counter strategy it returns `base-(n)ext` for the
least `n ≥ 1` such that no file of that name is present in the
directory. -/
theorem generateUniqueFilename_collision (fs : List String) (sep : Char)
    (nowMs : Nat) (randomStr dirPath fileName : String)
    (hex : normalizeDirPath sep dirPath ++ fileName ∈ fs) :
    (∀ strategy,
      generateUniqueFilename fs sep nowMs randomStr dirPath fileName strategy ≠
        fileName) ∧
    (∃ n, 1 ≤ n ∧
      generateUniqueFilename fs sep nowMs randomStr dirPath fileName "counter" =
        counterName (splitExt fileName).1 (splitExt fileName).2 n ∧
      normalizeDirPath sep dirPath ++
        counterName (splitExt fileName).1 (splitExt fileName).2 n ∉ fs ∧
      ∀ m, 1 ≤ m → m < n →
        normalizeDirPath sep dirPath ++
          counterName (splitExt fileName).1 (splitExt fileName).2 m ∈ fs) := by
  have hsplitlen : (splitExt fileName).1.data.length +
      (splitExt fileName).2.data.length = fileName.data.length := by
    have := congrArg List.length (splitExt_append fileName)
    simpa using this
  have hts : ∀ X : String,
      (splitExt fileName).1 ++ "-" ++ X ++ (splitExt fileName).2 ≠ fileName := by
    intro X
    apply ne_of_data_length
    rw [String.data_append, String.data_append, String.data_append]
    rw [List.length_append, List.length_append, List.length_append]
    have e1 : ("-" : String).data.length = 1 := rfl
    omega
  have hcnt : ∀ k,
      counterName (splitExt fileName).1 (splitExt fileName).2 k ≠ fileName := by
    intro k
    apply ne_of_data_length
    rw [counterName_data]
    rw [List.length_append, List.length_append, List.length_append,
      List.length_append]
    have e1 : ("-(" : String).data.length = 2 := rfl
    have e2 : (")" : String).data.length = 1 := rfl
    have e3 := decRepr_length_pos k
    omega
  constructor
  · intro strategy
    simp only [generateUniqueFilename]
    rw [if_pos hex]
    by_cases h1 : strategy = "timestamp"
    · rw [if_pos h1]; exact hts _
    · rw [if_neg h1]
      by_cases h2 : strategy = "counter"
      · rw [if_pos h2]
        obtain ⟨k, hk⟩ := counterLoop_shape fs (normalizeDirPath sep dirPath)
          (splitExt fileName).1 (splitExt fileName).2 (fs.length + 1) 1
        rw [hk]
        exact hcnt k
      · rw [if_neg h2]
        by_cases h3 : strategy = "random"
        · rw [if_pos h3]; exact hts _
        · rw [if_neg h3]; exact hts _
  · simp only [generateUniqueFilename]
    rw [if_pos hex]
    rw [if_neg (show ¬ ("counter" : String) = "timestamp" by decide)]
    simp only [if_true]
    obtain ⟨j, hj, hfree⟩ := counter_candidate_free fs (normalizeDirPath sep dirPath)
      (splitExt fileName).1 (splitExt fileName).2
    obtain ⟨k, hk1, hk2, hk3⟩ := counterLoop_spec fs (normalizeDirPath sep dirPath)
      (splitExt fileName).1 (splitExt fileName).2 (fs.length + 1) 1 ⟨j, hj, hfree⟩
    refine ⟨1 + k, by omega, hk1, hk2, ?_⟩
    intro m h1m hmk
    have hm := hk3 (m - 1) (by omega)
    have harith : 1 + (m - 1) = m := by omega
    rw [harith] at hm
    exact hm

/-- Witness for C3 at a concrete collision: `f.txt` already exists in the
(current) directory; the random strategy renames, and the counter strategy
picks `f-(1).txt`. -/
theorem generateUniqueFilename_collision_witness :
    generateUniqueFilename ["f.txt"] '/' 5 "ab" "" "f.txt" "random" ≠ "f.txt" ∧
    (∃ n, 1 ≤ n ∧
      generateUniqueFilename ["f.txt"] '/' 5 "ab" "" "f.txt" "counter" =
        counterName (splitExt "f.txt").1 (splitExt "f.txt").2 n ∧
      normalizeDirPath '/' "" ++
        counterName (splitExt "f.txt").1 (splitExt "f.txt").2 n ∉ ["f.txt"] ∧
      ∀ m, 1 ≤ m → m < n →
        normalizeDirPath '/' "" ++
          counterName (splitExt "f.txt").1 (splitExt "f.txt").2 m ∈ ["f.txt"]) :=
  ⟨(generateUniqueFilename_collision ["f.txt"] '/' 5 "ab" "" "f.txt"
      (by decide)).1 "random",
   (generateUniqueFilename_collision ["f.txt"] '/' 5 "ab" "" "f.txt"
      (by decide)).2⟩

/-- C9: a directory path consisting only of whitespace (including the empty
string) makes `ensureDirectoryExists` return `true` without attempting any
directory creation and `normalizeDirPath` return the empty string; a
non-blank path is first trimmed and then suffixed with the platform
separator exactly when the trimmed path does not already end with it. -/
theorem fileManager_blank_and_normalize (env : Env) (sep : Char) (p : String) :
    ((∀ c ∈ p.data, c.isWhitespace) →
      ensureDirectoryExists env p = (.ok true, []) ∧ normalizeDirPath sep p = "") ∧
    (jsTrim p ≠ "" →
      normalizeDirPath sep p =
        if (jsTrim p).data.getLast? = some sep then jsTrim p
        else jsTrim p ++ String.singleton sep) := by
  constructor
  · intro h
    have ht : jsTrim p = "" := String.ext (trimL_nil_of_all h)
    constructor
    · simp only [ensureDirectoryExists]
      rw [if_pos ht]
    · rw [normalizeDirPath, if_pos ht]
  · intro h
    rw [normalizeDirPath, if_neg h]

/-- Witness for C9: the blank path `"  "` succeeds with no creation attempt
and normalizes to `""`; the path `" a"` is trimmed and gets the separator
appended. -/
theorem fileManager_blank_and_normalize_witness :
    (ensureDirectoryExists envOk "  " = (.ok true, []) ∧
      normalizeDirPath '/' "  " = "") ∧
    normalizeDirPath '/' " a" =
      (if (jsTrim " a").data.getLast? = some '/' then jsTrim " a"
       else jsTrim " a" ++ String.singleton '/') :=
  ⟨(fileManager_blank_and_normalize envOk '/' "  ").1 (by decide),
   (fileManager_blank_and_normalize envOk '/' " a").2 (by decide)⟩

/-! ## The Transfer Engine -/

/-- The `downloadOne` promise always settles with a resolution value:
whatever the body does, the outer `catch` produces an outcome. -/
theorem downloadOne_settles (cfg : DownloadCfg) (env : Env) (url : String)
    (opts : DlOptions) : ∃ r, downloadOne cfg env url opts = .ok r := by
  rcases h : downloadOneBody cfg env url opts with ⟨e | o, t⟩
  · refine ⟨(.failure e, t), ?_⟩
    unfold downloadOne
    rw [h]
  · refine ⟨(o, t), ?_⟩
    unfold downloadOne
    rw [h]

/-- C1: for every configuration, world, url and options, `downloadOne`
never rejects — it resolves to an outcome value (`.ok`), so every failure
path becomes a `{success: false, error}` value instead of a propagated
exception. -/
theorem downloadOne_never_rejects (cfg : DownloadCfg) (env : Env) (url : String)
    (opts : DlOptions) : ∃ r, downloadOne cfg env url opts = .ok r :=
  downloadOne_settles cfg env url opts

/-- C4: when the HTTP GET stream cannot be opened, `downloadOne` resolves to
a failure outcome carrying a `FetchError` with the URL and the original
cause, and performs no side effect: no directory creation, no name
resolution, no progress bar, no write sink (the trace is empty). -/
theorem downloadOne_fetch_failure (cfg : DownloadCfg) (env : Env) (url : String)
    (opts : DlOptions) (cause : JsError)
    (hfail : env.fetch url cfg.timeout = .error cause) :
    downloadOne cfg env url opts =
      .ok (.failure (.fetch ("Failed to fetch data from URL: " ++ url) url cause),
        { dirsEnsured := [], namesResolved := [], progressStarted := [],
          sinksOpened := [] }) := by
  unfold downloadOne downloadOneBody fetchData
  rw [hfail]

/-- Witness for C4: a concrete rejected fetch. -/
theorem downloadOne_fetch_failure_witness :
    downloadOne cfg0 envFetchFail "http://x" {} =
      .ok (.failure (.fetch ("Failed to fetch data from URL: " ++ "http://x")
          "http://x" (.plain "ECONNREFUSED")),
        { dirsEnsured := [], namesResolved := [], progressStarted := [],
          sinksOpened := [] }) :=
  downloadOne_fetch_failure cfg0 envFetchFail "http://x" {} (.plain "ECONNREFUSED") rfl

/-- Complete case analysis of a `downloadOne` resolution: either some
failure outcome, or the success outcome carrying exactly the file path the
engine computed — the normalized directory concatenated with the name the
resolver produced. -/
theorem downloadOne_cases (cfg : DownloadCfg) (env : Env) (url : String)
    (opts : DlOptions) :
    (∃ e t2, downloadOne cfg env url opts = .ok (.failure e, t2)) ∨
    (∃ t2, downloadOne cfg env url opts =
      .ok (.success (normalizeDirPath env.sep (opts.path.getD "") ++
        generateUniqueFilename env.existingFiles env.sep env.nowMs env.randomStr
          (normalizeDirPath env.sep (opts.path.getD "")) (opts.fileName.getD "file")
          (opts.fileNamingStrategy.getD cfg.fileNamingStrategy)), t2)) := by
  simp only [downloadOne, downloadOneBody, fetchData, ensureDirectoryExists,
    createFileWriteStream]
  rcases hf : env.fetch url cfg.timeout with cause | ds
  · exact Or.inl ⟨_, _, rfl⟩
  · obtain ⟨cl, chunks, fate⟩ := ds
    by_cases htrim : jsTrim (opts.path.getD "") = ""
    · rw [if_pos htrim]
      rcases hb : env.barStartErr with _ | e
      · rcases hw : env.createWS (normalizeDirPath env.sep (opts.path.getD "") ++
            generateUniqueFilename env.existingFiles env.sep env.nowMs env.randomStr
              (normalizeDirPath env.sep (opts.path.getD ""))
              (opts.fileName.getD "file")
              (opts.fileNamingStrategy.getD cfg.fileNamingStrategy))
          with _ | e
        · rcases fate with _ | e | e
          · exact Or.inr ⟨_, rfl⟩
          · exact Or.inl ⟨_, _, rfl⟩
          · exact Or.inl ⟨_, _, rfl⟩
        · exact Or.inl ⟨_, _, rfl⟩
      · exact Or.inl ⟨_, _, rfl⟩
    · rw [if_neg htrim]
      rcases hmd : env.make_dir (opts.path.getD "") with emd | b
      · exact Or.inl ⟨_, _, rfl⟩
      · cases b
        · exact Or.inl ⟨_, _, rfl⟩
        · rcases hb : env.barStartErr with _ | e
          · rcases hw : env.createWS (normalizeDirPath env.sep (opts.path.getD "") ++
                generateUniqueFilename env.existingFiles env.sep env.nowMs env.randomStr
                  (normalizeDirPath env.sep (opts.path.getD ""))
                  (opts.fileName.getD "file")
                  (opts.fileNamingStrategy.getD cfg.fileNamingStrategy))
              with _ | e
            · rcases fate with _ | e | e
              · exact Or.inr ⟨_, rfl⟩
              · exact Or.inl ⟨_, _, rfl⟩
              · exact Or.inl ⟨_, _, rfl⟩
            · exact Or.inl ⟨_, _, rfl⟩
          · exact Or.inl ⟨_, _, rfl⟩

/-- Inversion: a successful `downloadOne` outcome carries exactly the file
path the engine computed. -/
theorem downloadOne_success_inv (cfg : DownloadCfg) (env : Env) (url : String)
    (opts : DlOptions) (fp : String) (t : Trace)
    (hsucc : downloadOne cfg env url opts = .ok (.success fp, t)) :
    fp = normalizeDirPath env.sep (opts.path.getD "") ++
      generateUniqueFilename env.existingFiles env.sep env.nowMs env.randomStr
        (normalizeDirPath env.sep (opts.path.getD "")) (opts.fileName.getD "file")
        (opts.fileNamingStrategy.getD cfg.fileNamingStrategy) := by
  rcases downloadOne_cases cfg env url opts with ⟨e, t2, hcase⟩ | ⟨t2, hcase⟩
  · rw [hcase] at hsucc
    simp at hsucc
  · rw [hcase] at hsucc
    simp only [Except.ok.injEq, Prod.mk.injEq, Outcome.success.injEq] at hsucc
    exact hsucc.1.symm

/-- C5: when the desired destination file does not already exist, the name
resolver returns the desired name unchanged, and consequently a successful
`downloadOne` outcome carries a file path equal to the normalized directory
concatenated with the original file name. -/
theorem downloadOne_fresh_name_path (cfg : DownloadCfg) (env : Env)
    (url : String) (opts : DlOptions) (fp : String) (t : Trace)
    (hnew : normalizeDirPath env.sep (opts.path.getD "") ++
      opts.fileName.getD "file" ∉ env.existingFiles)
    (hsucc : downloadOne cfg env url opts = .ok (.success fp, t)) :
    generateUniqueFilename env.existingFiles env.sep env.nowMs env.randomStr
      (normalizeDirPath env.sep (opts.path.getD "")) (opts.fileName.getD "file")
      (opts.fileNamingStrategy.getD cfg.fileNamingStrategy) =
        opts.fileName.getD "file" ∧
    fp = normalizeDirPath env.sep (opts.path.getD "") ++ opts.fileName.getD "file" := by
  have hres := generateUniqueFilename_fresh env.existingFiles env.sep env.nowMs
    env.randomStr (normalizeDirPath env.sep (opts.path.getD ""))
    (opts.fileName.getD "file") (opts.fileNamingStrategy.getD cfg.fileNamingStrategy)
    (by rw [normalizeDirPath_idem]; exact hnew)
  refine ⟨hres, ?_⟩
  rw [downloadOne_success_inv cfg env url opts fp t hsucc, hres]

/-- Witness for C5: in a clean world the default request succeeds and the
outcome path is the unchanged name under the (empty) normalized
directory. -/
theorem downloadOne_fresh_name_path_witness :
    generateUniqueFilename [] '/' 0 "abc123" (normalizeDirPath '/' "") "file"
      "timestamp" = "file" ∧
    "file" = normalizeDirPath '/' "" ++ "file" :=
  downloadOne_fresh_name_path cfg0 envOk "u" {} "file"
    { dirsEnsured := [], namesResolved := ["file"], progressStarted := [1],
      sinksOpened := ["file"] }
    (by decide) rfl

/-! ## The Batch Orchestrator -/

/-- One loop step on a valid request, with the awaited `downloadOne`
resolution exposed. -/
theorem downloadManyLoop_cons (cfg : DownloadCfg) (envs : Nat → Env) (i : Nat)
    (r : ManyReq) (rest : List (Option ManyReq)) :
    ∃ o t, downloadOne cfg (envs i) r.url
        { path := some (r.path.getD ""), fileName := some (r.fileName.getD "file"),
          downloadNumber := some (i + 1), fileNamingStrategy := none } = .ok (o, t) ∧
      downloadManyLoop cfg envs i (some r :: rest) =
        o :: downloadManyLoop cfg envs (i + 1) rest := by
  obtain ⟨⟨o, t⟩, hok⟩ := downloadOne_settles cfg (envs i) r.url
    { path := some (r.path.getD ""), fileName := some (r.fileName.getD "file"),
      downloadNumber := some (i + 1), fileNamingStrategy := none }
  refine ⟨o, t, hok, ?_⟩
  simp only [downloadManyLoop]
  rw [hok]

theorem downloadManyLoop_length (cfg : DownloadCfg) (envs : Nat → Env) :
    ∀ (reqs : List ManyReq) (i : Nat),
      (downloadManyLoop cfg envs i (reqs.map some)).length = reqs.length := by
  intro reqs
  induction reqs with
  | nil => intro i; rfl
  | cons r rest ih =>
    intro i
    obtain ⟨o, t, hok, hstep⟩ := downloadManyLoop_cons cfg envs i r (rest.map some)
    rw [List.map_cons, hstep, List.length_cons, ih (i + 1), List.length_cons]

theorem downloadManyLoop_get? (cfg : DownloadCfg) (envs : Nat → Env) :
    ∀ (reqs : List ManyReq) (i j : Nat) (r : ManyReq), reqs[j]? = some r →
      ∃ o t, (downloadManyLoop cfg envs i (reqs.map some))[j]? = some o ∧
        downloadOne cfg (envs (i + j)) r.url
          { path := some (r.path.getD ""), fileName := some (r.fileName.getD "file"),
            downloadNumber := some (i + j + 1), fileNamingStrategy := none } =
          .ok (o, t) := by
  intro reqs
  induction reqs with
  | nil => intro i j r h; simp at h
  | cons a rest ih =>
    intro i j r h
    obtain ⟨o, t, hok, hstep⟩ := downloadManyLoop_cons cfg envs i a (rest.map some)
    cases j with
    | zero =>
      simp only [List.getElem?_cons_zero, Option.some.injEq] at h
      subst h
      refine ⟨o, t, ?_, ?_⟩
      · rw [List.map_cons, hstep]
        simp
      · simpa using hok
    | succ j2 =>
      simp only [List.getElem?_cons_succ] at h
      obtain ⟨o2, t2, ho2, hd2⟩ := ih (i + 1) j2 r h
      refine ⟨o2, t2, ?_, ?_⟩
      · rw [List.map_cons, hstep, List.getElem?_cons_succ]
        exact ho2
      · have harith : i + (j2 + 1) = i + 1 + j2 := by omega
        rw [harith]
        exact hd2

/-- C2: `downloadMany` returns exactly one outcome per request, in input
order: the result list has the input's length, and the `j`-th outcome is the
resolution of the `j`-th request's `downloadOne` call — so no individual
failure prevents the subsequent requests from being attempted. -/
theorem downloadMany_length_order (cfg : DownloadCfg) (envs : Nat → Env)
    (reqs : List ManyReq) :
    (downloadMany cfg envs (reqs.map some)).length = reqs.length ∧
    ∀ j r, reqs[j]? = some r →
      ∃ o t, (downloadMany cfg envs (reqs.map some))[j]? = some o ∧
        downloadOne cfg (envs j) r.url
          { path := some (r.path.getD ""), fileName := some (r.fileName.getD "file"),
            downloadNumber := some (j + 1), fileNamingStrategy := none } =
          .ok (o, t) := by
  constructor
  · exact downloadManyLoop_length cfg envs reqs 0
  · intro j r h
    obtain ⟨o, t, h1, h2⟩ := downloadManyLoop_get? cfg envs reqs 0 j r h
    exact ⟨o, t, h1, by simpa using h2⟩

/-- Witness for C2: a batch of two requests against a world where every
transfer fails still yields two outcomes, and the second outcome is the
second request's own `downloadOne` resolution with display number 2. -/
theorem downloadMany_length_order_witness :
    (downloadMany cfg0 envsFail ([⟨"u1", none, none, none, none⟩,
        ⟨"u2", none, none, none, none⟩].map some)).length = 2 ∧
    (∃ o t, (downloadMany cfg0 envsFail ([⟨"u1", none, none, none, none⟩,
        ⟨"u2", none, none, none, none⟩].map some))[1]? = some o ∧
      downloadOne cfg0 (envsFail 1) "u2"
        { path := some "", fileName := some "file", downloadNumber := some 2,
          fileNamingStrategy := none } = .ok (o, t)) :=
  ⟨(downloadMany_length_order cfg0 envsFail
      [⟨"u1", none, none, none, none⟩, ⟨"u2", none, none, none, none⟩]).1,
   (downloadMany_length_order cfg0 envsFail
      [⟨"u1", none, none, none, none⟩, ⟨"u2", none, none, none, none⟩]).2
      1 ⟨"u2", none, none, none, none⟩ rfl⟩

theorem downloadManyLoop_stops_at_none (cfg : DownloadCfg) (envs : Nat → Env) :
    ∀ (reqs : List ManyReq) (i : Nat) (rest : List (Option ManyReq)),
      downloadManyLoop cfg envs i (reqs.map some ++ none :: rest) =
        downloadManyLoop cfg envs i (reqs.map some) := by
  intro reqs
  induction reqs with
  | nil => intro i rest; rfl
  | cons r rest2 ih =>
    intro i rest
    rw [List.map_cons, List.cons_append]
    obtain ⟨⟨o, t⟩, hok⟩ := downloadOne_settles cfg (envs i) r.url
      { path := some (r.path.getD ""), fileName := some (r.fileName.getD "file"),
        downloadNumber := some (i + 1), fileNamingStrategy := none }
    simp only [downloadManyLoop]
    rw [hok]
    show o :: downloadManyLoop cfg envs (i + 1) (rest2.map some ++ none :: rest) =
      o :: downloadManyLoop cfg envs (i + 1) (rest2.map some)
    rw [ih (i + 1) rest]

/-- C6: an exception arising in the orchestration loop itself — modelled by
a `null` entry in the argument list, whose destructuring throws before any
transfer of that entry starts — makes `downloadMany` return exactly the
outcomes accumulated so far (the full results of the valid prefix) instead
of propagating the exception; no collected outcome is lost. -/
theorem downloadMany_orchestration_fault (cfg : DownloadCfg) (envs : Nat → Env)
    (reqs : List ManyReq) (rest : List (Option ManyReq)) :
    downloadMany cfg envs (reqs.map some ++ none :: rest) =
      downloadMany cfg envs (reqs.map some) :=
  downloadManyLoop_stops_at_none cfg envs reqs 0 rest

theorem downloadManyLoop_scrub (cfg : DownloadCfg) (envs : Nat → Env) :
    ∀ (reqs : List ManyReq) (i : Nat),
      downloadManyLoop cfg envs i ((reqs.map scrubReq).map some) =
        downloadManyLoop cfg envs i (reqs.map some) := by
  intro reqs
  induction reqs with
  | nil => intro i; rfl
  | cons r rest ih =>
    intro i
    rw [List.map_cons, List.map_cons, List.map_cons]
    obtain ⟨⟨o, t⟩, hok⟩ := downloadOne_settles cfg (envs i) r.url
      { path := some (r.path.getD ""), fileName := some (r.fileName.getD "file"),
        downloadNumber := some (i + 1), fileNamingStrategy := none }
    simp only [scrubReq]
    simp only [downloadManyLoop]
    rw [hok]
    show o :: downloadManyLoop cfg envs (i + 1) ((rest.map scrubReq).map some) =
      o :: downloadManyLoop cfg envs (i + 1) (rest.map some)
    rw [ih (i + 1)]

/-- C10: the `downloadMany` loop forwards only `url`, `path`, `fileName`
and its own computed display number to `downloadOne`: erasing any
caller-supplied `downloadNumber`/`fileNamingStrategy` fields changes
nothing, and the `j`-th call receives `downloadNumber = j + 1` and no
per-call strategy, so the strategy fixed at construction applies. -/
theorem downloadMany_ignores_caller_fields (cfg : DownloadCfg)
    (envs : Nat → Env) (reqs : List ManyReq) :
    downloadMany cfg envs ((reqs.map scrubReq).map some) =
      downloadMany cfg envs (reqs.map some) ∧
    ∀ j r, reqs[j]? = some r →
      ∃ o t, (downloadMany cfg envs (reqs.map some))[j]? = some o ∧
        downloadOne cfg (envs j) r.url
          { path := some (r.path.getD ""), fileName := some (r.fileName.getD "file"),
            downloadNumber := some (j + 1), fileNamingStrategy := none } =
          .ok (o, t) := by
  constructor
  · exact downloadManyLoop_scrub cfg envs reqs 0
  · intro j r h
    obtain ⟨o, t, h1, h2⟩ := downloadManyLoop_get? cfg envs reqs 0 j r h
    exact ⟨o, t, h1, by simpa using h2⟩

/-- Witness for C10: a request carrying a junk display number and per-call
strategy behaves exactly like its scrubbed version, and its call gets
display number 1 and no per-call strategy. -/
theorem downloadMany_ignores_caller_fields_witness :
    downloadMany cfg0 envsFail
        ([⟨"u", none, none, some 99, some "counter"⟩].map scrubReq |>.map some) =
      downloadMany cfg0 envsFail ([⟨"u", none, none, some 99, some "counter"⟩].map some) ∧
    (∃ o t, (downloadMany cfg0 envsFail
        ([⟨"u", none, none, some 99, some "counter"⟩].map some))[0]? = some o ∧
      downloadOne cfg0 (envsFail 0) "u"
        { path := some "", fileName := some "file", downloadNumber := some 1,
          fileNamingStrategy := none } = .ok (o, t)) :=
  ⟨(downloadMany_ignores_caller_fields cfg0 envsFail
      [⟨"u", none, none, some 99, some "counter"⟩]).1,
   (downloadMany_ignores_caller_fields cfg0 envsFail
      [⟨"u", none, none, some 99, some "counter"⟩]).2
      0 ⟨"u", none, none, some 99, some "counter"⟩ rfl⟩

/-! ## The Progress Tracker -/

/-- C7: `stop` is idempotent — on an inactive tracker it is a complete
no-op (state untouched, no render-surface or console action, no failure),
it always leaves the active flag cleared even when the underlying render
surface throws on `stop`, and a second `stop` after any `stop` does
nothing. -/
theorem progressBar_stop_idempotent (stopErr stopErr2 : Option JsError)
    (s : PBState) :
    (s.isActive = false → ProgressBar.stop stopErr s = (s, [])) ∧
    (ProgressBar.stop stopErr s).1.isActive = false ∧
    ProgressBar.stop stopErr2 (ProgressBar.stop stopErr s).1 =
      ((ProgressBar.stop stopErr s).1, []) := by
  cases hA : s.isActive with
  | false => simp [ProgressBar.stop, hA]
  | true => cases stopErr <;> simp [ProgressBar.stop, hA]

/-- Witness for C7: stopping an inactive tracker is a no-op, and stopping an
active tracker whose render surface throws still clears the flag. -/
theorem progressBar_stop_idempotent_witness :
    ProgressBar.stop none ⟨0, 0, 0, false⟩ = (⟨0, 0, 0, false⟩, []) ∧
    (ProgressBar.stop (some (.plain "boom")) ⟨0, 0, 0, true⟩).1.isActive = false :=
  ⟨(progressBar_stop_idempotent none none ⟨0, 0, 0, false⟩).1 rfl,
   (progressBar_stop_idempotent (some (.plain "boom")) none ⟨0, 0, 0, true⟩).2.1⟩

/-- C8 (refuting the clamping claim): at a concrete update on an active
tracker — declared total 1.00 MB, first chunk of 1 byte arriving after one
second, so the received megabyte count rounds to exactly 0 — the code
computes ETA = (1.00 − 0) × 1 / 0 = Infinity and places it in the render
payload (progress-bar.js:257-261) with no clamping and no sentinel: a
non-finite ETA value reaches the render surface (the external
`secondsToDuration` formatter and `bar.update` receive it as is). -/
theorem progressBar_update_eta_unclamped :
    (ProgressBar.update 1000 1 ⟨0, 0, toFixed2MB 1048576, true⟩).2 =
      some ⟨0, JsNum.num 0, JsNum.inf⟩ ∧
    ((ProgressBar.update 1000 1 ⟨0, 0, toFixed2MB 1048576, true⟩).2.map
        (fun e => e.etaSeconds.isFinite)) = some false := by
  have h1 : (ProgressBar.update 1000 1 ⟨0, 0, toFixed2MB 1048576, true⟩).2 =
      some ⟨0, JsNum.num 0, JsNum.inf⟩ := by
    norm_num [ProgressBar.update, toFixed2MB, jsDiv]
  exact ⟨h1, by rw [h1]; rfl⟩

end DldUtils
